import Mathlib

/-!
Verification of the RAG (retrieval-augmented generation) core of the
`ai-pdf-analyser` backend against its natural-language specification.

The Python services are shallowly embedded: strings become `List Char`
with Python slicing/`rfind`/`strip` semantics made explicit, machine
floats become `ℝ` (for similarity arithmetic, where only order and
field structure matter) or `ℚ` (for the hash-fallback embedding, whose
values are ratios of small integers), and the `while` loop of the text
segmenter — which the source does not guarantee to terminate — is run
on explicit fuel, so that divergence is expressible as `none` for every
fuel value.
-/

namespace AIPdf

/-! ## Python string primitives -/

/-- Python whitespace characters recognised by `str.strip()`. -/
def pyIsSpace (c : Char) : Bool :=
  c = ' ' || c = '\t' || c = '\n' || c = '\r' || c = '\x0b' || c = '\x0c'

/-- Python `str.strip()` on a character list. -/
def pyStrip (xs : List Char) : List Char :=
  ((xs.dropWhile pyIsSpace).reverse.dropWhile pyIsSpace).reverse

/-- Normalise one (possibly negative) Python slice index against a length. -/
def pySliceIdx (i : Int) (len : Nat) : Nat :=
  if i < 0 then (len + i).toNat else min i.toNat len

/-- Python slice `xs[i:j]` with signed indices. -/
def pySlice (xs : List Char) (i j : Int) : List Char :=
  (xs.take (pySliceIdx j xs.length)).drop (pySliceIdx i xs.length)

/-- Python `str.rfind(c)`: highest index holding `c`, or `-1`. -/
def pyRfind (xs : List Char) (c : Char) : Int :=
  match xs.reverse.findIdx? (· = c) with
  | some k => (xs.length : Int) - 1 - k
  | none => -1

/-- Python `needle in haystack` substring test. -/
def containsSub (needle hay : List Char) : Bool :=
  (List.range (hay.length + 1)).any (fun i => needle.isPrefixOf (hay.drop i))

/-! ## Text segmenter (`SimpleRAGService._split_text`)

One iteration of the `while start < len(text)` loop body.  The float
comparison `break_point > start + chunk_size * 0.5` is exact for the
integer magnitudes involved, and is rendered as
`2 * bp > 2 * start + chunkSize`. -/

/-- One loop iteration of `_split_text`: from the current `start`, the
next `start` and the chunk selected by this window (before stripping). -/
def splitStep (text : List Char) (chunkSize overlap : Int) (start : Int) :
    Int × List Char :=
  let len : Int := text.length
  let e := min (start + chunkSize) len
  let chunk := pySlice text start e
  if e < len then
    let bp := max (pyRfind chunk '.') (pyRfind chunk '\n')
    if 2 * bp > 2 * start + chunkSize then
      (start + bp + 1 - overlap, chunk.take (bp + 1).toNat)
    else
      (e - overlap, chunk)
  else
    (e, chunk)

/-- The `while` loop of `_split_text`, run on fuel; `none` means the
fuel was exhausted before the loop condition `start < len(text)` failed. -/
def splitLoop (text : List Char) (chunkSize overlap : Int) :
    Nat → Int → List (List Char) → Option (List (List Char))
  | 0, _, _ => none
  | fuel + 1, start, acc =>
    if start < (text.length : Int) then
      let p := splitStep text chunkSize overlap start
      let s := pyStrip p.2
      splitLoop text chunkSize overlap fuel p.1 (if s.isEmpty then acc else acc ++ [s])
    else
      some acc

/-- `SimpleRAGService._split_text(text, chunk_size, overlap)`, fuelled. -/
def split_text (text : List Char) (chunkSize overlap : Int) (fuel : Nat) :
    Option (List (List Char)) :=
  splitLoop text chunkSize overlap fuel 0 []

/-- A 12-character text on which `_split_text` with `chunk_size = 10`,
`overlap = 9` loops forever: the window start cycles `0 → -1 → 0`. -/
def loopText : List Char := "aaaaaaa.aaaa".toList

theorem loopText_step0 : splitStep loopText 10 9 0 = (-1, "aaaaaaa.".toList) := by
  decide

theorem loopText_step1 : splitStep loopText 10 9 (-1) = (0, []) := by
  decide

theorem splitLoop_loopText_none :
    ∀ (fuel : Nat) (start : Int) (acc : List (List Char)),
      (start = 0 ∨ start = -1) → splitLoop loopText 10 9 fuel start acc = none := by
  intro fuel
  induction fuel with
  | zero => intro start acc _; rfl
  | succ n ih =>
    intro start acc h
    rcases h with rfl | rfl
    · rw [splitLoop, if_pos (by decide), loopText_step0]
      exact ih _ _ (Or.inr rfl)
    · rw [splitLoop, if_pos (by decide), loopText_step1]
      exact ih _ _ (Or.inl rfl)

/-- C2: the segmenter's loop, started at this text with `max_size = 10`
and `overlap = 9 = max_size - 1`, exhausts every fuel bound: the source
has no `start + 1` floor, the window start jumps from `0` to `-1`
(Python then slices an empty window) and returns to `0`, so the
`while` loop never exits.  This refutes the claimed termination and the
claimed strict increase of `start`. -/
theorem C2_split_text_diverges :
    ∀ fuel : Nat, split_text loopText 10 9 fuel = none :=
  fun fuel => splitLoop_loopText_none fuel 0 [] (Or.inl rfl)

/-- Text exhibiting the mis-scaled sentence-boundary test of
`_split_text`: 18 `'a'`s, a period, 6 more `'a'`s. -/
def c3Text : List Char := "aaaaaaaaaaaaaaaaaa.aaaaaa".toList

/-- C3: on `c3Text` with `max_size = 10`, `overlap = 0`, the second
window `[10,20)` has its last period at offset `8 > 10 * 0.5` from the
window start, yet the emitted second chunk is the whole window
`"aaaaaaaa.a"` rather than the claimed cut `"aaaaaaaa."`: the source
compares the window-relative offset `8` against `start + max_size*0.5
= 15`, so the boundary cut is skipped. -/
theorem C3_no_boundary_cut :
    split_text c3Text 10 0 5 =
      some ["aaaaaaaaaa".toList, "aaaaaaaa.a".toList, "aaaaa".toList] ∧
    pyRfind (pySlice c3Text 10 20) '.' = 8 := by
  decide

/-! ## Cosine similarity (`SimpleRAGService._cosine_similarity`)

Machine floats are modelled by `ℝ`; `x ** 0.5` is `Real.sqrt`. -/

/-- `sum(x * y for x, y in zip(a, b))`; `zip` truncates to the shorter list. -/
def dotList (a b : List ℝ) : ℝ := (a.zipWith (· * ·) b).sum

/-- `sum(x * x for x in a)`. -/
def sumSq (a : List ℝ) : ℝ := (a.map (fun x => x * x)).sum

/-- `sum(x * x for x in a) ** 0.5`, the Euclidean norm used by the source. -/
noncomputable def normL (a : List ℝ) : ℝ := Real.sqrt (sumSq a)

/-- `SimpleRAGService._cosine_similarity(a, b)`. -/
noncomputable def cosine_similarity (a b : List ℝ) : ℝ :=
  if a.length ≠ b.length then 0
  else if normL a = 0 ∨ normL b = 0 then 0
  else dotList a b / (normL a * normL b)

/-- C6: `_cosine_similarity` is a total function (it is defined by
exhaustive cases, never raising): mismatched lengths give `0.0`, a
zero-norm operand gives `0.0` (not NaN or an error), and otherwise the
result is `dot(a,b) / (norm(a) * norm(b))`. -/
theorem C6_cosine_similarity_total (a b : List ℝ) :
    (a.length ≠ b.length → cosine_similarity a b = 0) ∧
    (normL a = 0 ∨ normL b = 0 → cosine_similarity a b = 0) ∧
    (a.length = b.length → normL a ≠ 0 → normL b ≠ 0 →
      cosine_similarity a b = dotList a b / (normL a * normL b)) := by
  refine ⟨fun h => ?_, fun h => ?_, fun h ha hb => ?_⟩
  · simp [cosine_similarity, h]
  · by_cases hl : a.length = b.length
    · simp [cosine_similarity, hl, h]
    · simp [cosine_similarity, hl]
  · have : ¬ (normL a = 0 ∨ normL b = 0) := by
      rintro (h0 | h0)
      · exact ha h0
      · exact hb h0
    simp [cosine_similarity, h, this]

/-- Witness for C6 at concrete vectors: `[1]` against `[1, 0]`
(length mismatch), `[0]` against `[0]` (zero norm), and `[1]` against
`[1]` (regular case). -/
theorem C6_cosine_similarity_total_witness :
    cosine_similarity [(1 : ℝ)] [1, 0] = 0 ∧
    cosine_similarity [(0 : ℝ)] [0] = 0 ∧
    cosine_similarity [(1 : ℝ)] [1] = dotList [1] [1] / (normL [1] * normL [1]) := by
  refine ⟨(C6_cosine_similarity_total [(1 : ℝ)] [1, 0]).1 (by simp),
          (C6_cosine_similarity_total [(0 : ℝ)] [0]).2.1 (Or.inl ?_),
          (C6_cosine_similarity_total [(1 : ℝ)] [1]).2.2 (by simp) ?_ ?_⟩
  · simp [normL, sumSq]
  · simp [normL, sumSq]
  · simp [normL, sumSq]

/-! ## In-memory store and retrieval (`SimpleRAGService.query_documents`) -/

/-- One stored document record (`doc_data` appended by
`process_document`): id, chunk texts, and one embedding per chunk. -/
structure DocData where
  id : String
  chunks : List String
  embeddings : List (List ℝ)

/-- One entry of the `similarities` list built by `query_documents`. -/
structure SimEntry where
  doc_id : String
  chunk_index : Nat
  content : String
  similarity : ℝ

/-- Python `enumerate` starting from `n`. -/
def enumFromN (n : Nat) : List α → List (Nat × α)
  | [] => []
  | x :: xs => (n, x) :: enumFromN (n + 1) xs

/-- Python `enumerate(xs)`. -/
def pyEnumerate (xs : List α) : List (Nat × α) := enumFromN 0 xs

/-- Order-preserving concatenation of `f` over a list (the nested
`for` loops building `similarities`). -/
def concatMapL (f : α → List β) : List α → List β
  | [] => []
  | x :: xs => f x ++ concatMapL f xs

theorem mem_concatMapL {f : α → List β} {b : β} :
    ∀ {l : List α}, b ∈ concatMapL f l ↔ ∃ a ∈ l, b ∈ f a := by
  intro l
  induction l with
  | nil => simp [concatMapL]
  | cons x xs ih => simp [concatMapL, ih]

theorem mem_enumFromN {x : α} :
    ∀ {l : List α} {n i : Nat}, (i, x) ∈ enumFromN n l ↔
      n ≤ i ∧ l[i - n]? = some x := by
  intro l
  induction l with
  | nil => simp [enumFromN]
  | cons y ys ih =>
    intro n i
    constructor
    · intro h
      rcases List.mem_cons.1 h with h | h
      · obtain ⟨rfl, rfl⟩ := Prod.ext_iff.1 h
        simp
      · obtain ⟨hn, hget⟩ := ih.1 h
        refine ⟨by omega, ?_⟩
        have : i - n = (i - (n + 1)) + 1 := by omega
        rw [this]
        simpa using hget
    · rintro ⟨hn, hget⟩
      rcases Nat.eq_or_lt_of_le hn with rfl | hlt
      · simp only [Nat.sub_self] at hget
        simp only [List.getElem?_cons_zero, Option.some.injEq] at hget
        subst hget
        exact List.mem_cons_self _ _
      · refine List.mem_cons_of_mem _ (ih.2 ⟨by omega, ?_⟩)
        have : i - n = (i - (n + 1)) + 1 := by omega
        rw [this] at hget
        simpa using hget

theorem mem_pyEnumerate {x : α} {l : List α} {i : Nat} :
    (i, x) ∈ pyEnumerate l ↔ l[i]? = some x := by
  simp [pyEnumerate, mem_enumFromN]

/-- Keep a document iff `document_ids` is absent/empty or contains its
id (`if document_ids and doc["id"] not in document_ids: continue`). -/
def docScope (document_ids : List String) (d : DocData) : Bool :=
  document_ids.isEmpty || document_ids.contains d.id

/-- The `similarities` list of `query_documents`: for every stored
document in scope and every embedding of it, the cosine similarity to
the question embedding, tagged with id, index and chunk content. -/
noncomputable def query_similarities (docs : List DocData)
    (document_ids : List String) (qe : List ℝ) : List SimEntry :=
  concatMapL
    (fun d => (pyEnumerate d.embeddings).map
      (fun p => { doc_id := d.id, chunk_index := p.1,
                  content := d.chunks.getD p.1 "",
                  similarity := cosine_similarity qe p.2 }))
    (docs.filter (docScope document_ids))

/-- The comparator realising `sort(key=..., reverse=True)`: `a` may
precede `b` iff `a`'s similarity is at least `b`'s. -/
noncomputable def simLE (a b : SimEntry) : Bool :=
  decide (b.similarity ≤ a.similarity)

/-- `similarities` after the stable descending sort. -/
noncomputable def query_sorted (docs : List DocData)
    (document_ids : List String) (qe : List ℝ) : List SimEntry :=
  (query_similarities docs document_ids qe).mergeSort simLE

/-- `top_results = similarities[:k]` after sorting. -/
noncomputable def query_retrieval (docs : List DocData)
    (document_ids : List String) (qe : List ℝ) (k : Nat) : List SimEntry :=
  (query_sorted docs document_ids qe).take k

theorem simLE_trans (a b c : SimEntry) :
    simLE a b → simLE b c → simLE a c := by
  simp only [simLE, decide_eq_true_eq]
  exact fun h1 h2 => le_trans h2 h1

theorem simLE_total (a b : SimEntry) : simLE a b || simLE b a := by
  simp only [simLE, Bool.or_eq_true, decide_eq_true_eq]
  exact le_total b.similarity a.similarity

/-- C1: retrieval in `query_documents` computes the cosine similarity
of the question embedding against every stored embedding in scope,
stably sorts descending by similarity, and truncates to `k` results:
(1) at most `k` results; (2) the sorted list is a permutation of the
full similarity list; (3) results are pairwise descending; (4) every
stored embedding of every in-scope document occurs (with its cosine
similarity) in the sorted list; (5) with a non-empty `document_ids`
every result's document id lies in it; (6) ties keep insertion order:
a tied pair in original order stays a sublist after sorting. -/
theorem C1_query_retrieval (docs : List DocData) (ids : List String)
    (qe : List ℝ) (k : Nat) :
    (query_retrieval docs ids qe k).length ≤ k ∧
    (query_sorted docs ids qe).Perm (query_similarities docs ids qe) ∧
    (query_retrieval docs ids qe k).Pairwise
      (fun a b => b.similarity ≤ a.similarity) ∧
    (∀ d ∈ docs, (ids = [] ∨ d.id ∈ ids) →
      ∀ (i : Nat) (emb : List ℝ), d.embeddings[i]? = some emb →
        ({ doc_id := d.id, chunk_index := i, content := d.chunks.getD i "",
           similarity := cosine_similarity qe emb } : SimEntry) ∈
          query_sorted docs ids qe) ∧
    (ids ≠ [] → ∀ r ∈ query_retrieval docs ids qe k, r.doc_id ∈ ids) ∧
    (∀ a b : SimEntry, a.similarity = b.similarity →
      List.Sublist [a, b] (query_similarities docs ids qe) →
      List.Sublist [a, b] (query_sorted docs ids qe)) := by
  refine ⟨?_, ?_, ?_, ?_, ?_, ?_⟩
  · rw [query_retrieval, List.length_take]
    exact min_le_left _ _
  · exact List.mergeSort_perm _ simLE
  · have hs : (query_sorted docs ids qe).Pairwise (fun a b => simLE a b) :=
      List.sorted_mergeSort simLE_trans simLE_total _
    have := hs.sublist (List.take_sublist k _)
    exact this.imp (fun h => by simpa [simLE] using h)
  · intro d hd hscope i emb hget
    apply List.mem_mergeSort.2
    apply mem_concatMapL.2
    refine ⟨d, List.mem_filter.2 ⟨hd, ?_⟩, ?_⟩
    · rcases hscope with rfl | hmem
      · simp [docScope]
      · simp [docScope, List.contains, List.elem_iff, hmem]
    · exact List.mem_map.2 ⟨(i, emb), mem_pyEnumerate.2 hget, rfl⟩
  · intro hne r hr
    have hr' : r ∈ query_sorted docs ids qe := (List.take_sublist k _).subset hr
    obtain ⟨d, hdf, hmap⟩ := mem_concatMapL.1 (List.mem_mergeSort.1 hr')
    obtain ⟨hd, hsc⟩ := List.mem_filter.1 hdf
    obtain ⟨p, _, rfl⟩ := List.mem_map.1 hmap
    simp only [docScope, Bool.or_eq_true, List.isEmpty_iff,
      List.contains, List.elem_iff] at hsc
    rcases hsc with h | h
    · exact absurd h hne
    · exact h
  · intro a b hab hsub
    exact List.pair_sublist_mergeSort simLE_trans simLE_total
      (by simp [simLE, hab.symm.le]) hsub

/-- A one-document store used by concrete witnesses. -/
def docW : DocData := { id := "d1", chunks := ["c"], embeddings := [[(1 : ℝ)]] }

/-- Witness for C1 at the one-document store `[docW]`, question
embedding `[1]`, scope `["d1"]`, `k = 4`: clause (4) puts the single
entry in the sorted list, and clause (5) applies to it as a member of
the retrieved results. -/
theorem C1_query_retrieval_witness :
    ({ doc_id := "d1", chunk_index := 0, content := "c",
       similarity := cosine_similarity [(1 : ℝ)] [1] } : SimEntry) ∈
      query_sorted [docW] ["d1"] [1] ∧
    ({ doc_id := "d1", chunk_index := 0, content := "c",
       similarity := cosine_similarity [(1 : ℝ)] [1] } : SimEntry).doc_id ∈
      ["d1"] := by
  constructor
  · exact (C1_query_retrieval [docW] ["d1"] [1] 4).2.2.2.1 docW
      (by simp) (Or.inr (by simp [docW])) 0 [1] rfl
  · refine (C1_query_retrieval [docW] ["d1"] [1] 4).2.2.2.2.1
      (by simp) _ ?_
    simp [query_retrieval, query_sorted, query_similarities, concatMapL,
      pyEnumerate, enumFromN, docScope, docW]

/-! ## Generation and query packaging (`SimpleRAGService._generate_response`,
`SimpleRAGService.query_documents`) -/

/-- Outcome of the POST to the generation endpoint: a 200 response
whose JSON may or may not carry a `response` field, a non-200 status,
or a raised exception (timeout, connection error, ...). -/
inductive GenOutcome where
  | ok (payload : Option String)
  | httpError (code : Nat)
  | exn (msg : String)

/-- `SimpleRAGService._generate_response`, as a function of the
endpoint outcome.  Every branch returns a plain string; no branch
raises or reports failure. -/
def generate_response : GenOutcome → String
  | .ok p => p.getD "Sorry, I couldn\x27t generate a response."
  | .httpError _ => "Sorry, I couldn\x27t connect to the AI model."
  | .exn m => "Error generating response: " ++ m

/-- One element of the `sources` list in a query result. -/
structure QuerySource where
  content : String
  similarity : ℝ

/-- The dictionary returned by `SimpleRAGService.query_documents`. -/
structure QueryResult where
  success : Bool
  response : String
  sources : List QuerySource
  error : Option String

/-- `SimpleRAGService.query_documents` after a successful retrieval,
as a function of the generation-endpoint outcome: it always reaches
the `success: True` return, with `_generate_response`'s string as the
answer. -/
noncomputable def query_documents (docs : List DocData)
    (document_ids : List String) (qe : List ℝ) (k : Nat)
    (outcome : GenOutcome) : QueryResult :=
  { success := true
    response := generate_response outcome
    sources := (query_retrieval docs document_ids qe k).map
      (fun r => { content := r.content.take 200 ++ "...", similarity := r.similarity })
    error := none }

/-- C4 counterexample: with the single-document store and a failing
generation endpoint (HTTP 500 after retrieval succeeded), the query
result still has `success = true` and carries the canned fallback
answer — the claimed `success: false` with the underlying cause never
happens. -/
theorem C4_generation_failure_reports_success :
    (query_documents [docW] ["d1"] [1] 4 (.httpError 500)).success = true ∧
    (query_documents [docW] ["d1"] [1] 4 (.httpError 500)).response =
      "Sorry, I couldn\x27t connect to the AI model." ∧
    (query_documents [docW] ["d1"] [1] 4 (.httpError 500)).error = none := by
  exact ⟨rfl, rfl, rfl⟩

/-- C4 amended: whenever the generation endpoint fails — non-200
status or a raised exception — `query_documents` returns a success
result (`success: true`, `error` absent) whose answer is the canned
message for that failure kind; exceptions embed the cause inside the
answer string rather than in a failure result. -/
theorem C4_generation_failure_behaviour (docs : List DocData)
    (ids : List String) (qe : List ℝ) (k : Nat) (code : Nat) (msg : String) :
    ((query_documents docs ids qe k (.httpError code)).success = true ∧
     (query_documents docs ids qe k (.httpError code)).response =
       "Sorry, I couldn\x27t connect to the AI model." ∧
     (query_documents docs ids qe k (.httpError code)).error = none) ∧
    ((query_documents docs ids qe k (.exn msg)).success = true ∧
     (query_documents docs ids qe k (.exn msg)).response =
       "Error generating response: " ++ msg ∧
     (query_documents docs ids qe k (.exn msg)).error = none) :=
  ⟨⟨rfl, rfl, rfl⟩, ⟨rfl, rfl, rfl⟩⟩

/-! ## Deletion and count -/

/-- `SimpleRAGService.delete_document`: keep every record whose id
differs; the returned dictionary is always `{"success": True}`. -/
def delete_document (docs : List DocData) (document_id : String) :
    List DocData × Bool :=
  (docs.filter (fun d => d.id ≠ document_id), true)

/-- `SimpleRAGService.get_document_count`: `len(self.documents)`. -/
def get_document_count (docs : List DocData) : Nat := docs.length

/-- The success path of `SimpleRAGService.process_document` appends a
new record unconditionally (no dedup against an existing id). -/
def simple_ingest (docs : List DocData) (doc : DocData) : List DocData :=
  docs ++ [doc]

/-- An entry of the Chroma-backed vector store of `rag_service.py`,
abstracted to the metadata relevant here (`add_texts` stores chunk
text plus a `document_id` metadata field). -/
structure ChromaEntry where
  doc_id : String
  content : String

/-- `FixedRAGService.delete_document` of `rag_service.py`: the body
performs no store mutation at all ("deletion requested (not
implemented)") and reports success. -/
def rag_delete_document (store : List ChromaEntry) (_document_id : String) :
    List ChromaEntry × Bool :=
  (store, true)

/-- `FixedRAGService.get_document_count` of `rag_service.py`: returns
`0` unconditionally. -/
def rag_get_document_count (_store : List ChromaEntry) : Nat := 0

/-- Number of distinct document ids in the in-memory store. -/
def distinctIds (docs : List DocData) : Nat := (docs.map (·.id)).dedup.length

/-- C7 counterexample: in `rag_service.py`, deleting `"d1"` from a
store holding an entry for `"d1"` leaves the store unchanged while
reporting success — the claimed removal of all entries for the id does
not happen there. -/
theorem C7_rag_delete_is_noop :
    (rag_delete_document [{ doc_id := "d1", content := "x" }] "d1").1 =
      [{ doc_id := "d1", content := "x" }] ∧
    ({ doc_id := "d1", content := "x" } : ChromaEntry).doc_id = "d1" ∧
    (rag_delete_document [{ doc_id := "d1", content := "x" }] "d1").2 = true :=
  ⟨rfl, rfl, rfl⟩

/-- C7 amended: the in-memory `SimpleRAGService.delete_document`
removes every record with the given id (so later retrieval never
returns its chunks), reports success, is idempotent, and on an absent
id leaves the store — hence `count()` — unchanged; the Chroma-backed
`FixedRAGService.delete_document` of `rag_service.py` instead returns
success without touching the store. -/
theorem C7_delete_document_behaviour (docs : List DocData) (did : String) :
    (∀ d ∈ (delete_document docs did).1, d.id ≠ did) ∧
    (delete_document docs did).2 = true ∧
    delete_document (delete_document docs did).1 did = delete_document docs did ∧
    ((∀ d ∈ docs, d.id ≠ did) → (delete_document docs did).1 = docs) ∧
    get_document_count (delete_document (delete_document docs did).1 did).1 =
      get_document_count (delete_document docs did).1 ∧
    (∀ (ids : List String) (qe : List ℝ) (k : Nat),
      ∀ r ∈ query_retrieval (delete_document docs did).1 ids qe k,
        r.doc_id ≠ did) ∧
    (∀ store : List ChromaEntry, rag_delete_document store did = (store, true)) := by
  have hff : (docs.filter (fun d => d.id ≠ did)).filter (fun d => d.id ≠ did) =
      docs.filter (fun d => d.id ≠ did) :=
    List.filter_eq_self.2 (fun a ha => (List.mem_filter.1 ha).2)
  refine ⟨?_, rfl, ?_, ?_, ?_, ?_, fun _ => rfl⟩
  · intro d hd
    simpa using (List.mem_filter.1 hd).2
  · simp [delete_document, hff]
  · intro h
    exact List.filter_eq_self.2 (fun a ha => by simpa using h a ha)
  · simp [delete_document, get_document_count, hff]
  · intro ids qe k r hr
    have hr' : r ∈ query_sorted (delete_document docs did).1 ids qe :=
      (List.take_sublist k _).subset hr
    obtain ⟨d, hdf, hmap⟩ := mem_concatMapL.1 (List.mem_mergeSort.1 hr')
    have hd : d ∈ (delete_document docs did).1 := (List.mem_filter.1 hdf).1
    have hdid : d.id ≠ did := by
      simpa using (List.mem_filter.1 hd).2
    obtain ⟨p, _, rfl⟩ := List.mem_map.1 hmap
    exact hdid

/-- Witness for C7 at the one-document store `[docW]` and the absent
id `"d2"`: deletion leaves the store intact, and the entry retrieved
afterwards does not belong to `"d2"`. -/
theorem C7_delete_document_behaviour_witness :
    (delete_document [docW] "d2").1 = [docW] ∧
    ({ doc_id := "d1", chunk_index := 0, content := "c",
       similarity := cosine_similarity [(1 : ℝ)] [1] } : SimEntry).doc_id ≠ "d2" := by
  constructor
  · exact (C7_delete_document_behaviour [docW] "d2").2.2.2.1
      (by simp [docW])
  · refine (C7_delete_document_behaviour [docW] "d2").2.2.2.2.2.1 [] [1] 4 _ ?_
    simp [query_retrieval, query_sorted, query_similarities, concatMapL,
      pyEnumerate, enumFromN, docScope, delete_document, docW]

/-- C10 counterexample: ingesting the same document id twice in
`SimpleRAGService` makes `get_document_count` return `2` although only
one distinct id is indexed; and `FixedRAGService.get_document_count`
of `rag_service.py` returns `0` over a store holding one document. -/
theorem C10_count_counterexample :
    get_document_count (simple_ingest (simple_ingest [] docW) docW) = 2 ∧
    distinctIds (simple_ingest (simple_ingest [] docW) docW) = 1 ∧
    rag_get_document_count [{ doc_id := "d1", content := "x" }] = 0 := by
  refine ⟨rfl, ?_, rfl⟩
  simp [distinctIds, simple_ingest, docW]

/-- C10 amended: `SimpleRAGService.get_document_count` returns the
number of stored records, which equals the number of distinct indexed
ids exactly when no id is stored twice (deletes preserve this, but
re-ingesting an id without deleting first breaks it); the
Chroma-backed `FixedRAGService.get_document_count` of `rag_service.py`
returns `0` regardless of the store. -/
theorem C10_count_behaviour (docs : List DocData) (store : List ChromaEntry) :
    get_document_count docs = docs.length ∧
    ((docs.map (·.id)).Nodup → get_document_count docs = distinctIds docs) ∧
    rag_get_document_count store = 0 := by
  refine ⟨rfl, fun h => ?_, rfl⟩
  rw [get_document_count, distinctIds, h.dedup, List.length_map]

/-- Witness for C10 at the one-document store `[docW]`: with its ids
nodup, the record count coincides with the distinct-id count. -/
theorem C10_count_behaviour_witness :
    get_document_count [docW] = distinctIds [docW] :=
  (C10_count_behaviour [docW] []).2.1 (by simp)

/-! ## Hash-fallback embedding (`SimpleRAGService._simple_embedding`)

The MD5 digest itself lives in `hashlib`, outside this repository; the
embedding is therefore parameterised by the hex digest the hash
returns (for MD5, 32 lowercase hex characters).  Float values
`int(h, 16) / 255.0` are ratios of small integers, modelled in `ℚ`. -/

/-- Value of one hex digit as parsed by Python `int(_, 16)`. -/
def hexVal (c : Char) : Nat :=
  if 48 ≤ c.toNat ∧ c.toNat ≤ 57 then c.toNat - 48
  else if 97 ≤ c.toNat ∧ c.toNat ≤ 102 then c.toNat - 97 + 10
  else if 65 ≤ c.toNat ∧ c.toNat ≤ 70 then c.toNat - 65 + 10
  else 0

/-- The loop `for i in range(0, len(hash_hex), 2)`: each two-character
slice parsed as an integer and divided by `255.0`. -/
def pairVals : List Char → List ℚ
  | [] => []
  | [c] => [(hexVal c : ℚ) / 255]
  | c1 :: c2 :: rest => ((16 * hexVal c1 + hexVal c2 : ℚ) / 255) :: pairVals rest

/-- `SimpleRAGService._simple_embedding` applied to a digest: pad with
`0.0` up to 384 entries, then truncate to 384. -/
def simple_embedding (hashHex : List Char) : List ℚ :=
  (pairVals hashHex ++ List.replicate (384 - (pairVals hashHex).length) 0).take 384

theorem hexVal_le (c : Char) : hexVal c ≤ 15 := by
  rw [hexVal]
  split_ifs <;> omega

theorem pairVals_length : ∀ xs : List Char, (pairVals xs).length = (xs.length + 1) / 2
  | [] => by simp [pairVals]
  | [_] => by simp [pairVals]
  | c1 :: c2 :: rest => by
    have := pairVals_length rest
    simp only [pairVals, List.length_cons, this]
    omega

theorem pairVals_bounds : ∀ (xs : List Char), ∀ x ∈ pairVals xs, 0 ≤ x ∧ x ≤ 1
  | [], x, hx => by simp [pairVals] at hx
  | [c], x, hx => by
    simp only [pairVals, List.mem_singleton] at hx
    subst hx
    constructor
    · positivity
    · rw [div_le_one (by norm_num)]
      have := hexVal_le c
      have : (hexVal c : ℚ) ≤ 15 := by exact_mod_cast this
      linarith
  | c1 :: c2 :: rest, x, hx => by
    rcases List.mem_cons.1 hx with rfl | hx
    · constructor
      · positivity
      · rw [div_le_one (by norm_num)]
        have h1 := hexVal_le c1
        have h2 := hexVal_le c2
        have h1' : (hexVal c1 : ℚ) ≤ 15 := by exact_mod_cast h1
        have h2' : (hexVal c2 : ℚ) ≤ 15 := by exact_mod_cast h2
        linarith
    · exact pairVals_bounds rest x hx

/-- C5: for any digest function and text whose digest has the MD5 hex
width 32, the fallback embedding has length exactly 384, every
component lies in `[0, 1]` (a two-hex-digit value divided by 255),
components from position 16 on are the zero padding, and the function
is pure: equal digests give identical vectors. -/
theorem C5_simple_embedding (md5hex : String → List Char) (text : String)
    (hlen : (md5hex text).length = 32) :
    (simple_embedding (md5hex text)).length = 384 ∧
    (∀ x ∈ simple_embedding (md5hex text), 0 ≤ x ∧ x ≤ 1) ∧
    (∀ i : Nat, 16 ≤ i → i < 384 →
      (simple_embedding (md5hex text)).getD i 1 = 0) ∧
    (∀ t' : String, md5hex t' = md5hex text →
      simple_embedding (md5hex t') = simple_embedding (md5hex text)) := by
  have hp : (pairVals (md5hex text)).length = 16 := by
    rw [pairVals_length, hlen]
  refine ⟨?_, ?_, ?_, fun t' h => by rw [h]⟩
  · rw [simple_embedding, List.length_take, List.length_append, hp,
      List.length_replicate]
    norm_num
  · intro x hx
    have hx' := (List.take_sublist _ _).subset hx
    rcases List.mem_append.1 hx' with h | h
    · exact pairVals_bounds _ x h
    · have := List.eq_of_mem_replicate h
      subst this
      norm_num
  · intro i h16 h384
    rw [List.getD_eq_getElem?_getD, simple_embedding,
      List.getElem?_take_of_lt h384,
      List.getElem?_append_right (by omega),
      List.getElem?_replicate]
    rw [hp]
    have : i - 16 < 384 - 16 := by omega
    simp [this]

/-- Witness digest function for C5: constantly the MD5 hex digest of
the empty string. -/
def md5W : String → List Char :=
  fun _ => "d41d8cd98f00b204e9800998ecf8427e".toList

/-- Witness for C5 at the constant digest `md5W` and the empty text:
the vector has 384 entries and position 100 holds the zero padding. -/
theorem C5_simple_embedding_witness :
    (simple_embedding (md5W "")).length = 384 ∧
    (simple_embedding (md5W "")).getD 100 1 = 0 :=
  ⟨(C5_simple_embedding md5W "" (by decide)).1,
   (C5_simple_embedding md5W "" (by decide)).2.2.1 100 (by norm_num) (by norm_num)⟩

/-! ## Fallback ingestion (`FixedRAGService._fallback_process_document`
of `fixed_rag_service.py`)

PDF text extraction happens in external libraries (PyMuPDF / PyPDF2);
the function is therefore parameterised by the extraction outcome: the
`extraction_successful` flag and the accumulated `text`. -/

/-- One record of the fallback in-memory store. -/
structure FallbackDoc where
  id : String
  file_path : String
  content : String

/-- The dictionary returned by ingestion. -/
structure IngestResult where
  success : Bool
  document_id : Option String
  chunks : Option Nat
  text : Option String
  error : Option String

/-- The marker checked to decide whether an existing record is a
placeholder that must be reprocessed. -/
def placeholderMark : List Char := "PDF text extraction not available".toList

/-- The error message built when extraction fails or yields only
whitespace. -/
def extractionErrorMsg (extraction_successful : Bool) (text : String) : String :=
  "Failed to extract text from PDF. Extraction successful: " ++
    (if extraction_successful then "True" else "False") ++
    ", Text length: " ++ toString text.length ++
    ". Please ensure the PDF contains readable text and is not an image-based PDF."

/-- The part of `_fallback_process_document` after the existing-record
check: validate the extraction outcome, then update or append. -/
def fallback_extract_and_store (docs : List FallbackDoc)
    (file_path document_id : String) (extraction_successful : Bool)
    (text : String) : List FallbackDoc × IngestResult :=
  if !extraction_successful || (pyStrip text.toList).isEmpty then
    (docs, { success := false, document_id := none, chunks := none,
             text := none,
             error := some (extractionErrorMsg extraction_successful text) })
  else
    let doc_data : FallbackDoc :=
      { id := document_id, file_path := file_path, content := text }
    let docs' := match docs.findIdx? (fun d => d.id == document_id) with
      | some i => docs.set i doc_data
      | none => docs ++ [doc_data]
    (docs', { success := true, document_id := some document_id,
              chunks := some 1, text := some text, error := none })

/-- `FixedRAGService._fallback_process_document(file_path, document_id)`
as a function of the store and the extraction outcome. -/
def fallback_process_document (docs : List FallbackDoc)
    (file_path document_id : String) (extraction_successful : Bool)
    (text : String) : List FallbackDoc × IngestResult :=
  match docs.find? (fun d => d.id == document_id) with
  | some d =>
    if containsSub placeholderMark d.content.toList then
      fallback_extract_and_store docs file_path document_id
        extraction_successful text
    else
      (docs, { success := true, document_id := some document_id,
               chunks := some 1, text := some d.content, error := none })
  | none =>
    fallback_extract_and_store docs file_path document_id
      extraction_successful text

/-- C8: whenever ingestion actually extracts (the id is new, or its
first existing record is a reprocessable placeholder) and the
extraction yields no usable text — failure flag or whitespace-only
text — the result is `success: false` with an error message, and the
stored documents are exactly as before: no entry is created. -/
theorem C8_empty_extraction_fails (docs : List FallbackDoc)
    (file_path document_id : String) (extraction_successful : Bool)
    (text : String)
    (hreach : docs.find? (fun d => d.id == document_id) = none ∨
      ∃ d, docs.find? (fun d => d.id == document_id) = some d ∧
        containsSub placeholderMark d.content.toList = true)
    (hempty : extraction_successful = false ∨
      (pyStrip text.toList).isEmpty = true) :
    fallback_process_document docs file_path document_id
        extraction_successful text =
      (docs, { success := false, document_id := none, chunks := none,
               text := none,
               error := some (extractionErrorMsg extraction_successful text) }) := by
  have hcond : (!extraction_successful || (pyStrip text.toList).isEmpty) = true := by
    rcases hempty with rfl | h
    · rfl
    · rw [h, Bool.or_true]
  have hfail : fallback_extract_and_store docs file_path document_id
      extraction_successful text =
      (docs, { success := false, document_id := none, chunks := none,
               text := none,
               error := some (extractionErrorMsg extraction_successful text) }) := by
    rw [fallback_extract_and_store, if_pos hcond]
  rcases hreach with hnone | ⟨d, hsome, hph⟩
  · rw [fallback_process_document, hnone, hfail]
  · rw [fallback_process_document, hsome]
    simp only [hph, if_true]
    exact hfail

/-- Witness for C8: an empty store, a fresh id, and an extraction that
"succeeded" but produced only whitespace. -/
theorem C8_empty_extraction_fails_witness :
    fallback_process_document [] "f.pdf" "doc1" true "  \n " =
      ([], { success := false, document_id := none, chunks := none,
             text := none,
             error := some (extractionErrorMsg true "  \n ") }) :=
  C8_empty_extraction_fails [] "f.pdf" "doc1" true "  \n "
    (Or.inl rfl) (Or.inr (by decide))

/-! ## Streaming query events (`FixedRAGService.query_documents_stream`
of `rag_service.py` and `send_message_stream` of `chat.py`)

The RAG chain's `astream` output is a finite sequence of chunks, each
optionally carrying an `answer` fragment and/or a `context` document
list.  `chat.py` drains the stream, emitting one `content` event per
fragment, then a single terminal event with the sources, the echoed
`document_ids` and `done: true`; a failed query yields one `error`
event. -/

/-- A retrieved document as seen in a stream chunk's `context`. -/
structure CtxDoc where
  page_content : String
  metadata : String

/-- A source record emitted to the client. -/
structure StreamSource where
  content : String
  metadata : String

/-- One chunk of the `astream` sequence. -/
structure StreamChunk where
  answer : Option String
  context : Option (List CtxDoc)

/-- `{"content": doc.page_content[:200] + "...", "metadata": doc.metadata}`. -/
def truncSource (d : CtxDoc) : StreamSource :=
  { content := d.page_content.take 200 ++ "...", metadata := d.metadata }

/-- One iteration of `stream_generator`: append the `answer` fragment
to the yielded sequence; capture the sources from the first chunk
whose mapped context is non-empty. -/
def stream_step (st : List String × List StreamSource) (ch : StreamChunk) :
    List String × List StreamSource :=
  (match ch.answer with
   | some c => st.1 ++ [c]
   | none => st.1,
   match ch.context with
   | some ctx => if st.2.isEmpty then ctx.map truncSource else st.2
   | none => st.2)

/-- Draining the whole generator: yielded fragments and final sources. -/
def stream_drain (chunks : List StreamChunk) : List String × List StreamSource :=
  chunks.foldl stream_step ([], [])

/-- Server-sent events written by `send_message_stream`. -/
inductive SseEvent where
  | content (s : String)
  | done (sources : List StreamSource) (document_ids : List String)
  | error (msg : String)

/-- The event sequence produced by `send_message_stream` in `chat.py`,
as a function of the streaming-query outcome. -/
def send_message_stream_events (document_ids : List String)
    (outcome : Except String (List StreamChunk)) : List SseEvent :=
  match outcome with
  | .error e => [.error e]
  | .ok chunks =>
    ((stream_drain chunks).1.map SseEvent.content) ++
      [.done (stream_drain chunks).2 document_ids]

/-- The answer fragments of a chunk sequence, in production order. -/
def fragmentsOf (chunks : List StreamChunk) : List String :=
  chunks.filterMap (·.answer)

/-- The sources the generator captures: the mapped context of the
first chunk whose context is non-empty. -/
def sourcesOf (chunks : List StreamChunk) : List StreamSource :=
  match (chunks.filterMap (·.context)).find? (fun ctx => !ctx.isEmpty) with
  | some ctx => ctx.map truncSource
  | none => []

theorem stream_drain_fst :
    ∀ (chunks : List StreamChunk) (ys : List String) (srcs : List StreamSource),
      (chunks.foldl stream_step (ys, srcs)).1 = ys ++ fragmentsOf chunks
  | [], ys, srcs => by simp [fragmentsOf]
  | ch :: rest, ys, srcs => by
    rw [List.foldl_cons, stream_drain_fst rest]
    cases h : ch.answer <;> simp [stream_step, h, fragmentsOf]

theorem stream_drain_snd_of_ne :
    ∀ (chunks : List StreamChunk) (ys : List String) (srcs : List StreamSource),
      srcs ≠ [] → (chunks.foldl stream_step (ys, srcs)).2 = srcs
  | [], ys, srcs, _ => rfl
  | ch :: rest, ys, srcs, h => by
    have hs : (stream_step (ys, srcs) ch).2 = srcs := by
      cases hc : ch.context <;>
        simp [stream_step, hc, List.isEmpty_iff, h]
    rcases hst : stream_step (ys, srcs) ch with ⟨a, b⟩
    rw [hst] at hs
    subst hs
    rw [List.foldl_cons, hst]
    exact stream_drain_snd_of_ne rest a _ h

theorem stream_drain_snd_of_nil :
    ∀ (chunks : List StreamChunk) (ys : List String),
      (chunks.foldl stream_step (ys, [])).2 = sourcesOf chunks
  | [], ys => rfl
  | ch :: rest, ys => by
    rw [List.foldl_cons]
    cases hc : ch.context with
    | none =>
      rw [show stream_step (ys, []) ch = ((stream_step (ys, []) ch).1, []) from
          by simp [stream_step, hc]]
      rw [stream_drain_snd_of_nil rest]
      simp [sourcesOf, fragmentsOf, List.filterMap_cons, hc]
    | some ctx =>
      cases hctx : ctx with
      | nil =>
        rw [show stream_step (ys, []) ch = ((stream_step (ys, []) ch).1, []) from
            by simp [stream_step, hc, hctx]]
        rw [stream_drain_snd_of_nil rest]
        simp [sourcesOf, List.filterMap_cons, hc, hctx, List.find?]
      | cons d ds =>
        rw [show stream_step (ys, []) ch =
            ((stream_step (ys, []) ch).1, (d :: ds).map truncSource) from
            by simp [stream_step, hc, hctx]]
        rw [stream_drain_snd_of_ne rest _ _ (by simp)]
        simp [sourcesOf, List.filterMap_cons, hc, hctx, List.find?]

/-- C9: on a successful streaming query the emitted event sequence is
exactly one `content` event per generated fragment, in production
order, followed by exactly one terminal event carrying the captured
sources, the echoed `document_ids` and the done flag; on a failed
query it is a single `error` event. -/
theorem C9_stream_event_sequence (document_ids : List String)
    (chunks : List StreamChunk) (e : String) :
    send_message_stream_events document_ids (.ok chunks) =
      (fragmentsOf chunks).map SseEvent.content ++
        [SseEvent.done (sourcesOf chunks) document_ids] ∧
    send_message_stream_events document_ids (.error e) = [.error e] := by
  constructor
  · have hd : stream_drain chunks = (fragmentsOf chunks, sourcesOf chunks) := by
      rw [stream_drain]
      refine Prod.ext ?_ ?_
      · rw [stream_drain_fst]
        simp
      · exact stream_drain_snd_of_nil chunks []
    rw [send_message_stream_events, hd]
  · rfl

end AIPdf
